import Mathlib

/-!
Verification model of the ACR docker credential helper.

The Go sources are embedded shallowly:
* `registry.go` / the hardened registry validator file: `ACRCred.V1.ValidateAndExtract`,
  `ACRCred.V1.IsACRRegistry`, `ACRCred.ParseAndNormalize`, `ACRCred.normalizeRegistryHost`,
  `ACRCred.IsACRRegistry`.
* `errors.go`: the error-message constructors.
* the authenticator file: `ACRCred.ExchangeForACRTokenRequest` (request construction) and
  `ACRCred.ExchangeForACRTokenResult` (response handling) of `ExchangeForACRToken`.
* `helper.go`: `ACRCred.ACRHelper.Get`, `.Add`, `.Delete`, `.List`, with the
  `AZURE_TENANT_ID` environment lookup modelled as an explicit field and the
  authenticator modelled as a record of operations (as the repository's own
  test fake does).

The relevant part of Go's `net/url.Parse` is modelled byte-for-byte on the
control paths the validator exercises (scheme splitting, query/fragment
splitting, authority/userinfo/host/port parsing, percent-escape validation).
Unicode case folding and Unicode white space beyond ASCII are simplified to
their ASCII behaviour, and IPv6 zone identifiers inside bracketed hosts are
unescaped without the zone special case; error messages produced inside the
URL parser are the underlying cause without Go's `parse "u": ` envelope.
-/

deriving instance DecidableEq for Except

namespace ACRCred

/-! ### ASCII character helpers (Go `strings`/`unicode` behaviour on ASCII) -/

def charToLowerGo (c : Char) : Char :=
  if 65 ≤ c.toNat ∧ c.toNat ≤ 90 then Char.ofNat (c.toNat + 32) else c

def isSpaceGo (c : Char) : Bool :=
  c = ' ' || c = '\t' || c = '\n' || c = '\x0d' || c = '\x0b' || c = '\x0c'

def lowerAlnumB (c : Char) : Bool :=
  (97 ≤ c.toNat && c.toNat ≤ 122) || (48 ≤ c.toNat && c.toNat ≤ 57)

def upperB (c : Char) : Bool :=
  65 ≤ c.toNat && c.toNat ≤ 90

def alnumB (c : Char) : Bool :=
  upperB c || lowerAlnumB c

def goToLower (s : String) : String :=
  (s.toList.map charToLowerGo).asString

def trimLeadingSpaces (l : List Char) : List Char := l.dropWhile isSpaceGo

def trimL (l : List Char) : List Char :=
  ((trimLeadingSpaces l).reverse.dropWhile isSpaceGo).reverse

def goTrimSpace (s : String) : String := (trimL s.toList).asString

/-- Go `strings.TrimSuffix`: remove one occurrence of the suffix if present. -/
def goTrimSfxL (l sfx : List Char) : List Char :=
  if sfx.isSuffixOf l then l.take (l.length - sfx.length) else l

def goTrimSfx (s sfx : String) : String := (goTrimSfxL s.toList sfx.toList).asString

/-- Go `strings.TrimPrefix`: remove one occurrence of the leading pattern if present. -/
def goTrimPreL (l p : List Char) : List Char :=
  if p.isPrefixOf l then l.drop p.length else l

def goTrimPre (s p : String) : String := (goTrimPreL s.toList p.toList).asString

def strEndsWith (s sfx : String) : Bool := sfx.toList.isSuffixOf s.toList

def strHasPre (s p : String) : Bool := p.toList.isPrefixOf s.toList

/-- `sub` occurs as a contiguous run inside `l` (Go `strings.Contains`). -/
def isInfixOfL (sub : List Char) : List Char → Bool
  | [] => sub.isEmpty
  | c :: cs => sub.isPrefixOf (c :: cs) || isInfixOfL sub cs

def strContainsSub (s sub : String) : Bool := isInfixOfL sub.toList s.toList

/-! ### Model of the used fragment of Go `net/url.Parse` -/

/-- Split at the first occurrence of `sep`, dropping the separator
(Go `split(s, sep, true)`; second component is `[]` when `sep` is absent). -/
def splitFirst (sep : Char) : List Char → List Char × List Char
  | [] => ([], [])
  | c :: cs =>
    if c = sep then ([], cs)
    else
      let p := splitFirst sep cs
      (c :: p.1, p.2)

/-- Split at the first occurrence of `sep`, keeping the separator on the tail
(Go `split(s, sep, false)`). -/
def splitFirstKeep (sep : Char) : List Char → List Char × List Char
  | [] => ([], [])
  | c :: cs =>
    if c = sep then ([], c :: cs)
    else
      let p := splitFirstKeep sep cs
      (c :: p.1, p.2)

/-- Split at the last occurrence of `sep` (dropping it); `none` when absent. -/
def splitLast (sep : Char) : List Char → Option (List Char × List Char)
  | [] => none
  | c :: cs =>
    match splitLast sep cs with
    | some p => some (c :: p.1, p.2)
    | none => if c = sep then some ([], cs) else none

def containsCTL (l : List Char) : Bool :=
  l.any fun c => decide (c.toNat < 32) || decide (c.toNat = 127)

def isHexDigit (c : Char) : Bool :=
  (48 ≤ c.toNat && c.toNat ≤ 57) || (97 ≤ c.toNat && c.toNat ≤ 102) ||
    (65 ≤ c.toNat && c.toNat ≤ 70)

def hexVal (c : Char) : Nat :=
  if 48 ≤ c.toNat ∧ c.toNat ≤ 57 then c.toNat - 48
  else if 97 ≤ c.toNat ∧ c.toNat ≤ 102 then c.toNat - 87
  else c.toNat - 55

/-- Characters Go leaves unescaped in a host (`shouldEscape(c, encodeHost) = false`)
for ASCII `c`. -/
def hostNoEscape (c : Char) : Bool :=
  alnumB c ||
    c ∈ ['-', '_', '.', '~', '!', '$', '&', '\'', '(', ')', '*', '+', ',', ';',
      '=', ':', '[', ']', '<', '>', '"']

/-- Go `unescape` in the modes used by `url.Parse`; `isHost` selects the
`encodeHost` mode with its extra character validation. -/
def unescapeGo (isHost : Bool) : List Char → Except String (List Char)
  | [] => .ok []
  | '%' :: c1 :: c2 :: rest =>
    if isHexDigit c1 && isHexDigit c2 then
      if isHost && decide (hexVal c1 < 8) && !(c1 = '2' && c2 = '5') then
        .error "invalid character in host name"
      else
        match unescapeGo isHost rest with
        | .error e => .error e
        | .ok r => .ok (Char.ofNat (16 * hexVal c1 + hexVal c2) :: r)
    else .error "invalid URL escape"
  | ['%'] => .error "invalid URL escape"
  | ['%', _] => .error "invalid URL escape"
  | c :: rest =>
    if isHost && decide (c.toNat < 128) && !hostNoEscape c then
      .error "invalid character in host name"
    else
      match unescapeGo isHost rest with
      | .error e => .error e
      | .ok r => .ok (c :: r)

/-- Go `validOptionalPort`: empty, or `':'` followed by decimal digits only. -/
def validOptionalPort : List Char → Bool
  | [] => true
  | ':' :: rest => rest.all fun c => 48 ≤ c.toNat && c.toNat ≤ 57
  | _ => false

def validUserinfoChar (c : Char) : Bool :=
  alnumB c ||
    c ∈ ['-', '.', '_', ':', '~', '!', '$', '&', '\'', '(', ')', '*', '+', ',',
      ';', '=', '%', '@']

/-- Go `getScheme`; returns `(scheme, rest)`. -/
def getSchemeAux (orig : List Char) (acc : List Char) (isFirst : Bool) :
    List Char → Except String (List Char × List Char)
  | [] => .ok ([], orig)
  | c :: cs =>
    if (97 ≤ c.toNat ∧ c.toNat ≤ 122) ∨ (65 ≤ c.toNat ∧ c.toNat ≤ 90) then
      getSchemeAux orig (acc ++ [c]) false cs
    else if (48 ≤ c.toNat ∧ c.toNat ≤ 57) ∨ c = '+' ∨ c = '-' ∨ c = '.' then
      if isFirst then .ok ([], orig) else getSchemeAux orig (acc ++ [c]) false cs
    else if c = ':' then
      if isFirst then .error "missing protocol scheme" else .ok (acc, cs)
    else .ok ([], orig)

def getScheme (l : List Char) : Except String (List Char × List Char) :=
  getSchemeAux l [] true l

/-- Go `parseHost`: validates an optional port and host characters; the
returned host still contains the port text. -/
def parseHost (host : List Char) : Except String (List Char) :=
  if host.head? = some '[' then
    match splitLast ']' host with
    | none => .error "missing ']' in host"
    | some p =>
      if validOptionalPort p.2 then unescapeGo true host
      else .error "invalid port after host"
  else
    match splitLast ':' host with
    | some p =>
      if validOptionalPort (':' :: p.2) then unescapeGo true host
      else .error "invalid port after host"
    | none => unescapeGo true host

/-- Go `parseAuthority`: split at the last `'@'` into userinfo and host. -/
def parseAuthority (authority : List Char) :
    Except String (Option (List Char) × List Char) :=
  match splitLast '@' authority with
  | none =>
    match parseHost authority with
    | .error e => .error e
    | .ok h => .ok (none, h)
  | some p =>
    match parseHost p.2 with
    | .error e => .error e
    | .ok h =>
      if p.1.all validUserinfoChar then
        match unescapeGo false p.1 with
        | .error e => .error e
        | .ok u => .ok (some u, h)
      else .error "net/url: invalid userinfo"

structure GoURL where
  scheme : String
  opq : String
  user : Option String
  host : String
  path : String
  forceQuery : Bool
  rawQuery : String
  fragment : String
deriving DecidableEq

def emptyGoURL : GoURL := ⟨"", "", none, "", "", false, "", ""⟩

/-- Authority-and-path tail of Go `parse` once `rest` is known to begin with `'/'`. -/
def parseAfterSlash (scheme : String) (fq : Bool) (rawQuery : String)
    (rest : List Char) : Except String GoURL :=
  if (scheme ≠ "" ∨ ¬(['/', '/', '/'].isPrefixOf rest = true)) ∧
      ['/', '/'].isPrefixOf rest = true then
    let p := splitFirstKeep '/' (rest.drop 2)
    match parseAuthority p.1 with
    | .error e => .error e
    | .ok uh =>
      match unescapeGo false p.2 with
      | .error e => .error e
      | .ok path =>
        .ok ⟨scheme, "", uh.1.map List.asString, uh.2.asString, path.asString,
          fq, rawQuery, ""⟩
  else
    match unescapeGo false rest with
    | .error e => .error e
    | .ok path => .ok ⟨scheme, "", none, "", path.asString, fq, rawQuery, ""⟩

/-- Go `parse(u, viaRequest := false)` on the fragment-stripped input. -/
def goParseNoFrag (u : List Char) : Except String GoURL :=
  if containsCTL u then .error "invalid control character in URL"
  else if u = ['*'] then .ok { emptyGoURL with path := "*" }
  else
    match getScheme u with
    | .error e => .error e
    | .ok sr =>
      let scheme := (sr.1.map charToLowerGo).asString
      let fq : Bool := sr.2.getLast? = some '?' && !(sr.2.dropLast.contains '?')
      let rest := if fq then sr.2.dropLast else (splitFirst '?' sr.2).1
      let rawQuery : String := if fq then "" else ((splitFirst '?' sr.2).2).asString
      if rest.head? = some '/' then parseAfterSlash scheme fq rawQuery rest
      else if scheme ≠ "" then
        .ok ⟨scheme, rest.asString, none, "", "", fq, rawQuery, ""⟩
      else if ((splitFirstKeep '/' rest).1).contains ':' then
        .error "first path segment in URL cannot contain colon"
      else
        match unescapeGo false rest with
        | .error e => .error e
        | .ok path => .ok ⟨scheme, "", none, "", path.asString, fq, rawQuery, ""⟩

/-- Go `url.Parse`: fragment split plus `parse`. -/
def goURLParse (s : String) : Except String GoURL :=
  let p := splitFirst '#' s.toList
  match goParseNoFrag p.1 with
  | .error e => .error e
  | .ok u1 =>
    if p.2 = [] then .ok u1
    else
      match unescapeGo false p.2 with
      | .error e => .error e
      | .ok f => .ok { u1 with fragment := f.asString }

def stripBracketsL (h : List Char) : List Char :=
  if h.head? = some '[' ∧ h.getLast? = some ']' then (h.drop 1).dropLast else h

/-- Go `splitHostPort` on `u.Host`. -/
def splitHostPortL (hostPort : List Char) : List Char × List Char :=
  match splitLast ':' hostPort with
  | some p =>
    if validOptionalPort (':' :: p.2) then (stripBracketsL p.1, p.2)
    else (stripBracketsL hostPort, [])
  | none => (stripBracketsL hostPort, [])

def GoURL.port (u : GoURL) : String := (splitHostPortL u.host.toList).2.asString

def GoURL.hostname (u : GoURL) : String := (splitHostPortL u.host.toList).1.asString

/-! ### Registry validation -/

def ACRDomainSuffix : String := ".azurecr.io"

/-- `registry.go` pattern `^[a-zA-Z0-9]{5,50}$` (full match). -/
def matchesNamePatternMixed (s : String) : Bool :=
  decide (5 ≤ s.length) && decide (s.length ≤ 50) && s.toList.all alnumB

/-- The hardened validator's pattern `^[a-z0-9]{5,50}$` (full match). -/
def matchesNamePatternLower (s : String) : Bool :=
  decide (5 ≤ s.length) && decide (s.length ≤ 50) && s.toList.all lowerAlnumB

/-- `normalizeRegistryHost` of the hardened registry validator. -/
def normalizeRegistryHost (raw : String) : Except String String :=
  if strContainsSub raw "://" = true then
    match goURLParse raw with
    | .error e => .error ("invalid registry URL: " ++ e)
    | .ok parsed =>
      if parsed.host = "" then .error "invalid registry URL: missing host"
      else if parsed.port ≠ "" then .error "invalid registry URL: ports are not allowed"
      else if parsed.path ≠ "" ∧ parsed.path ≠ "/" then
        .error "invalid registry URL: paths are not allowed"
      else if parsed.rawQuery ≠ "" ∨ parsed.fragment ≠ "" ∨ parsed.user.isSome = true then
        .error "invalid registry URL: query, fragment, and user info are not allowed"
      else .ok (goTrimSfx parsed.hostname ".")
  else
    let trimmed := goTrimSfxL raw.toList ['/']
    if trimmed.any (fun c => c = '/' || c = '?' || c = '#') = true then
      .error "invalid registry URL: paths, query, and fragment are not allowed"
    else if trimmed.any (fun c => c = ':') = true then
      .error "invalid registry URL: ports are not allowed"
    else if trimmed.any (fun c => c = '@') = true then
      .error "invalid registry URL: user info is not allowed"
    else .ok (goTrimSfxL trimmed ['.']).asString

/-- `ParseAndNormalize` of the hardened registry validator: canonical host and
registry short name, or a validation error. -/
def ParseAndNormalize (serverURL : String) : Except String (String × String) :=
  let raw := goTrimSpace (goToLower serverURL)
  if raw = "" then .error "registry URL is empty"
  else
    match normalizeRegistryHost raw with
    | .error e => .error e
    | .ok host =>
      if strEndsWith host ACRDomainSuffix = false then
        .error ("not an ACR registry: URL must end with " ++ ACRDomainSuffix ++
          ", got: " ++ host)
      else
        let registryName := goTrimSfx host ACRDomainSuffix
        if matchesNamePatternLower registryName = false then
          .error ("invalid ACR registry name: must be 5-50 alphanumeric characters, got: " ++
            registryName)
        else .ok (host, registryName)

/-- `IsACRRegistry` of the hardened validator: success test of `ParseAndNormalize`. -/
def IsACRRegistry (serverURL : String) : Bool :=
  match ParseAndNormalize serverURL with
  | .ok _ => true
  | .error _ => false

namespace V1

/-- `ValidateAndExtract` of `registry.go`: trims `https://`, `http://` and one
trailing slash, checks the domain suffix, and returns the short registry name. -/
def ValidateAndExtract (serverURL : String) : Except String String :=
  let s1 := goTrimPre serverURL "https://"
  let s2 := goTrimPre s1 "http://"
  let s3 := goTrimSfx s2 "/"
  if strEndsWith s3 ACRDomainSuffix = false then
    .error ("not an ACR registry: URL must end with " ++ ACRDomainSuffix ++
      ", got: " ++ s3)
  else
    let registryName := goTrimSfx s3 ACRDomainSuffix
    if matchesNamePatternMixed registryName = false then
      .error ("invalid ACR registry name: must be 5-50 alphanumeric characters, got: " ++
        registryName)
    else .ok registryName

/-- `IsACRRegistry` of `registry.go`: scheme trim plus a bare suffix check. -/
def IsACRRegistry (serverURL : String) : Bool :=
  strEndsWith (goTrimPre (goTrimPre serverURL "https://") "http://") ACRDomainSuffix

end V1

/-! ### errors.go -/

def missingTenantIDErrorMsg : String :=
  "Unable to determine tenant ID: not found in access token and AZURE_TENANT_ID environment variable is not set. Please set AZURE_TENANT_ID to your Azure tenant ID."

def notImplementedErrorMsg (operation : String) : String :=
  "operation '" ++ operation ++
    "' is not implemented by docker-credential-acr. This helper only supports credential retrieval (Get)."

def azureAuthErrorMsg (cause : String) : String :=
  "Azure authentication failed: " ++ cause ++
    ". Ensure you are logged in via Azure CLI, have a managed identity, or have set appropriate environment variables (AZURE_CLIENT_ID, AZURE_CLIENT_SECRET, AZURE_TENANT_ID)."

def acrTokenExchangeErrorMsg (cause : String) : String :=
  "ACR token exchange failed: " ++ cause ++
    ". Verify that AZURE_TENANT_ID is correct and that you have permission to access the registry."

/-! ### Authenticator (token exchange) -/

def ACRTokenExchangePath : String := "/oauth2/exchange"

def ACRScope : String := "https://containerregistry.azure.net/.default"

structure ExchangeRequest where
  url : String
  method : String
  contentType : String
  formFields : List (String × String)
deriving DecidableEq

/-- Request built by `ExchangeForACRToken(registryHost, tenantID, azureToken)`:
the URL is `https://<registryHost>/oauth2/exchange` and the form fields carry
`service = registryHost` (field order as declared; the wire encoding sorts keys). -/
def ExchangeForACRTokenRequest (registryHost tenantID azureToken : String) :
    ExchangeRequest :=
  ⟨"https://" ++ registryHost ++ ACRTokenExchangePath, "POST",
    "application/x-www-form-urlencoded",
    [("grant_type", "access_token"), ("service", registryHost),
      ("tenant", tenantID), ("access_token", azureToken)]⟩

/-- Response handling of `ExchangeForACRToken`: non-200 status, JSON decode
failure and an empty `refresh_token` are errors; otherwise the refresh token. -/
def ExchangeForACRTokenResult (statusCode : Nat) (body : String)
    (decoded : Except String String) : Except String String :=
  if statusCode ≠ 200 then
    .error ("ACR token exchange failed with status " ++ toString statusCode ++
      ": " ++ body)
  else
    match decoded with
    | .error e => .error ("failed to parse ACR token response: " ++ e)
    | .ok refreshToken =>
      if refreshToken = "" then .error "ACR token exchange returned empty refresh_token"
      else .ok refreshToken

/-! ### helper.go -/

/-- The authenticator operations as `helper.go` consumes them (the shape the
repository's test fake implements): acquisition, tenant extraction, and the
four-string exchange call used at `Get`'s call site. -/
structure Authenticator where
  getAzureAccessToken : Except String String
  extractTenantIDFromToken : String → Except String String
  exchangeForACRToken : String → String → String → String → Except String String

structure Credentials where
  username : String
  secret : String
deriving DecidableEq

def nullGUID : String := "00000000-0000-0000-0000-000000000000"

/-- `ACRHelper`, with the `os.Getenv("AZURE_TENANT_ID")` lookup modelled as the
explicit field `azureTenantIDEnv`. -/
structure ACRHelper where
  authenticator : Authenticator
  azureTenantIDEnv : String

/-- Tenant fallback of `Get` step 3: the environment value, or the
missing-tenant error when it is empty. -/
def fallbackTenant (env : String) : Except String String :=
  if env = "" then .error missingTenantIDErrorMsg else .ok env

/-- `ACRHelper.Get`: validate, acquire a token, resolve the tenant (JWT claim
with environment fallback), exchange, and return the null-GUID credentials. -/
def ACRHelper.Get (h : ACRHelper) (serverURL : String) : Except String Credentials :=
  match V1.ValidateAndExtract serverURL with
  | .error err => .error err
  | .ok registryName =>
    match h.authenticator.getAzureAccessToken with
    | .error err => .error (azureAuthErrorMsg err)
    | .ok azureToken =>
      let resolved : Except String String :=
        match h.authenticator.extractTenantIDFromToken azureToken with
        | .ok t => if t = "" then fallbackTenant h.azureTenantIDEnv else .ok t
        | .error _ => fallbackTenant h.azureTenantIDEnv
      match resolved with
      | .error err => .error err
      | .ok tenantID =>
        match h.authenticator.exchangeForACRToken registryName serverURL tenantID azureToken with
        | .error err => .error (acrTokenExchangeErrorMsg err)
        | .ok refreshToken => .ok ⟨nullGUID, refreshToken⟩

/-- `ACRHelper.Add`: credential storage is not implemented. -/
def ACRHelper.Add (_h : ACRHelper) (_creds : Credentials) : Except String Unit :=
  .error (notImplementedErrorMsg "Add")

/-- `ACRHelper.Delete`: credential removal is not implemented. -/
def ACRHelper.Delete (_h : ACRHelper) (_serverURL : String) : Except String Unit :=
  .error (notImplementedErrorMsg "Delete")

/-- `ACRHelper.List`: always the empty mapping. -/
def ACRHelper.List (_h : ACRHelper) : Except String (List (String × String)) :=
  .ok []

/-! ### Definitions supporting the claims -/

/-- The input (trimmed and lower-cased as normalization does first) exhibits a
port, userinfo, query, or fragment component: for scheme-carrying inputs, the
parsed URL has a userinfo part, a non-empty port, a non-empty query, or a
non-empty fragment; for bare hosts, it contains one of the markers
`':'`, `'@'`, `'?'`, `'#'`. -/
def hasForbiddenComponentB (s : String) : Bool :=
  let raw := goTrimSpace (goToLower s)
  if strContainsSub raw "://" = true then
    match goURLParse raw with
    | .ok u =>
      u.user.isSome || decide (u.port ≠ "") || decide (u.rawQuery ≠ "") ||
        decide (u.fragment ≠ "")
    | .error _ => false
  else raw.toList.any fun c => c = ':' || c = '@' || c = '?' || c = '#'

/-- An authenticator stub whose exchange step reports the registry-host
argument it was handed (as the returned token), exposing `Get`'s call. -/
def spyAuthenticator : Authenticator :=
  ⟨.ok "stub-access-token", fun _ => .ok "stub-tenant",
    fun registryHost _serverURL _tenantID _azureToken => .ok registryHost⟩

/-- The all-success authenticator stub of the repository's helper tests. -/
def successAuthenticator : Authenticator :=
  ⟨.ok "fake-azure-token", fun _ => .ok "fake-tenant-id",
    fun _ _ _ _ => .ok "fake-refresh-token-12345"⟩

/-! ### Helper lemmas -/

theorem matchesNamePatternLower_eq_false {n : String}
    (h : n.length < 5 ∨ 50 < n.length ∨
      ∃ c ∈ n.toList, upperB c = true ∨ alnumB c = false) :
    matchesNamePatternLower n = false := by
  cases hb : matchesNamePatternLower n
  · rfl
  · exfalso
    unfold matchesNamePatternLower at hb
    simp only [Bool.and_eq_true, decide_eq_true_eq, List.all_eq_true] at hb
    obtain ⟨⟨h5, h50⟩, hall⟩ := hb
    rcases h with h | h | ⟨c, hc, hcc⟩
    · omega
    · omega
    · have hlc := hall c hc
      rcases hcc with hu | ha
      · unfold lowerAlnumB at hlc
        unfold upperB at hu
        simp only [Bool.or_eq_true, Bool.and_eq_true, decide_eq_true_eq] at hlc hu
        omega
      · have hA : alnumB c = true := by unfold alnumB; rw [hlc, Bool.or_true]
        rw [hA] at ha
        exact Bool.noConfusion ha

theorem mem_goTrimSfxL_singleton {c d : Char} {l : List Char}
    (hc : c ∈ l) (hne : c ≠ d) : c ∈ goTrimSfxL l [d] := by
  unfold goTrimSfxL
  split
  · rename_i hs
    obtain ⟨t, ht⟩ := List.isSuffixOf_iff_suffix.mp hs
    rw [← ht] at hc ⊢
    have hlen : (t ++ [d]).length - [d].length = t.length := by simp
    rw [hlen, List.take_left]
    rcases List.mem_append.mp hc with h1 | h1
    · exact h1
    · simp only [List.mem_singleton] at h1
      exact absurd h1 hne
  · exact hc

/-! ### The claims -/

/-- Claim C2: normalization of `"HTTPS://MyRegistry.azurecr.io/"`,
`"myregistry.azurecr.io"` and `"http://myregistry.azurecr.io"` succeeds in all
three cases and yields the same canonical host `"myregistry.azurecr.io"`. -/
theorem claim_C2_uniform_normal_forms :
    ParseAndNormalize "HTTPS://MyRegistry.azurecr.io/" =
      .ok ("myregistry.azurecr.io", "myregistry") ∧
    ParseAndNormalize "myregistry.azurecr.io" =
      .ok ("myregistry.azurecr.io", "myregistry") ∧
    ParseAndNormalize "http://myregistry.azurecr.io" =
      .ok ("myregistry.azurecr.io", "myregistry") :=
  ⟨by decide, by decide, by decide⟩

/-- Claim C3: whenever the host produced by host normalization carries the
domain suffix but its short name violates the length-and-charset rule (length
below 5 or above 50, or an upper-case or non-alphanumeric character),
`ParseAndNormalize` fails with the invalid-registry-name error naming the
constraint and the rejected name. -/
theorem claim_C3_invalid_name_rejected (serverURL host : String)
    (hne : goTrimSpace (goToLower serverURL) ≠ "")
    (hnorm : normalizeRegistryHost (goTrimSpace (goToLower serverURL)) = .ok host)
    (hsfx : strEndsWith host ACRDomainSuffix = true)
    (hbad : (goTrimSfx host ACRDomainSuffix).length < 5 ∨
      50 < (goTrimSfx host ACRDomainSuffix).length ∨
      ∃ c ∈ (goTrimSfx host ACRDomainSuffix).toList,
        upperB c = true ∨ alnumB c = false) :
    ParseAndNormalize serverURL =
      .error ("invalid ACR registry name: must be 5-50 alphanumeric characters, got: " ++
        goTrimSfx host ACRDomainSuffix) := by
  have hm := matchesNamePatternLower_eq_false hbad
  simp [ParseAndNormalize, hnorm, hne, hsfx, hm]

/-- Witness for C3 at the concrete rejected input `"ab.azurecr.io"`. -/
theorem claim_C3_witness :
    goTrimSpace (goToLower "ab.azurecr.io") ≠ "" ∧
    normalizeRegistryHost (goTrimSpace (goToLower "ab.azurecr.io")) =
      .ok "ab.azurecr.io" ∧
    strEndsWith "ab.azurecr.io" ACRDomainSuffix = true ∧
    (goTrimSfx "ab.azurecr.io" ACRDomainSuffix).length < 5 ∧
    ParseAndNormalize "ab.azurecr.io" =
      .error ("invalid ACR registry name: must be 5-50 alphanumeric characters, got: " ++
        goTrimSfx "ab.azurecr.io" ACRDomainSuffix) :=
  ⟨by decide, by decide, by decide, by decide,
    claim_C3_invalid_name_rejected "ab.azurecr.io" "ab.azurecr.io" (by decide)
      (by decide) (by decide) (Or.inl (by decide))⟩

/-- Claim C7: whenever the host produced by host normalization does not end
with the fixed domain suffix, `ParseAndNormalize` fails with the
not-an-ACR-registry error naming the required suffix and the rejected host. -/
theorem claim_C7_missing_suffix_rejected (serverURL host : String)
    (hne : goTrimSpace (goToLower serverURL) ≠ "")
    (hnorm : normalizeRegistryHost (goTrimSpace (goToLower serverURL)) = .ok host)
    (hsfx : strEndsWith host ACRDomainSuffix = false) :
    ParseAndNormalize serverURL =
      .error ("not an ACR registry: URL must end with " ++ ACRDomainSuffix ++
        ", got: " ++ host) := by
  simp [ParseAndNormalize, hnorm, hne, hsfx]

/-- Witness for C7 at the concrete rejected input `"gcr.io"`. -/
theorem claim_C7_witness :
    goTrimSpace (goToLower "gcr.io") ≠ "" ∧
    normalizeRegistryHost (goTrimSpace (goToLower "gcr.io")) = .ok "gcr.io" ∧
    strEndsWith "gcr.io" ACRDomainSuffix = false ∧
    ParseAndNormalize "gcr.io" =
      .error ("not an ACR registry: URL must end with " ++ ACRDomainSuffix ++
        ", got: " ++ "gcr.io") :=
  ⟨by decide, by decide, by decide,
    claim_C7_missing_suffix_rejected "gcr.io" "gcr.io" (by decide) (by decide)
      (by decide)⟩

/-- Claim C9: the hardened validator's `IsACRRegistry` answers `true` exactly
when full normalization/validation (`ParseAndNormalize`) succeeds. -/
theorem claim_C9_isregistry_iff_normalize_ok (serverURL : String) :
    IsACRRegistry serverURL = true ↔
      ∃ p, ParseAndNormalize serverURL = .ok p := by
  unfold IsACRRegistry
  cases h : ParseAndNormalize serverURL with
  | ok p => simp [h]
  | error e => simp [h]

/-- Claim C10: `Add` (store) and `Delete` always fail with the not-implemented
error naming the requested operation, and `List` always succeeds with the
empty mapping. -/
theorem claim_C10_store_delete_list (h : ACRHelper) (creds : Credentials)
    (serverURL : String) :
    h.Add creds = .error (notImplementedErrorMsg "Add") ∧
    h.Delete serverURL = .error (notImplementedErrorMsg "Delete") ∧
    h.List = .ok [] ∧
    (∃ before after, notImplementedErrorMsg "Add" = before ++ "Add" ++ after) ∧
    (∃ before after, notImplementedErrorMsg "Delete" = before ++ "Delete" ++ after) :=
  ⟨rfl, rfl, rfl, ⟨_, _, rfl⟩, ⟨_, _, rfl⟩⟩

/-- Claim C1 (evidence of the divergence): on input
`"myregistry.azurecr.io"` the canonical host is `"myregistry.azurecr.io"`,
yet `Get` hands the exchange step the short name `"myregistry"` in the
registry-host slot (the spy exchange echoes its first argument), and the
exchange request built from that slot targets
`https://myregistry/oauth2/exchange` with form field
`service = "myregistry"` — not the canonical host. -/
theorem claim_C1_exchange_target_mismatch :
    ParseAndNormalize "myregistry.azurecr.io" =
      .ok ("myregistry.azurecr.io", "myregistry") ∧
    ACRHelper.Get ⟨spyAuthenticator, "env-tenant"⟩ "myregistry.azurecr.io" =
      .ok ⟨nullGUID, "myregistry"⟩ ∧
    ("myregistry" : String) ≠ "myregistry.azurecr.io" ∧
    (ExchangeForACRTokenRequest "myregistry" "stub-tenant" "stub-access-token").url =
      "https://myregistry/oauth2/exchange" ∧
    (ExchangeForACRTokenRequest "myregistry" "stub-tenant" "stub-access-token").url ≠
      "https://" ++ "myregistry.azurecr.io" ++ ACRTokenExchangePath ∧
    ("service", "myregistry") ∈
      (ExchangeForACRTokenRequest "myregistry" "stub-tenant" "stub-access-token").formFields ∧
    ("service", "myregistry.azurecr.io") ∉
      (ExchangeForACRTokenRequest "myregistry" "stub-tenant" "stub-access-token").formFields :=
  ⟨by decide, by decide, by decide, by decide, by decide, by decide, by decide⟩

/-- Claim C5: when tenant extraction from the token fails or yields the empty
string, `Get` falls back to the `AZURE_TENANT_ID` environment value; with an
empty environment value it returns the missing-tenant error (no exchange is
performed for any exchange implementation), and with a non-empty one the
exchange proceeds with that value in the tenant position. -/
theorem claim_C5_tenant_fallback
    (acq : Except String String) (ext : String → Except String String)
    (exch : String → String → String → String → Except String String)
    (env serverURL registryName azureToken : String)
    (hval : V1.ValidateAndExtract serverURL = .ok registryName)
    (hacq : acq = .ok azureToken)
    (hext : (∃ m, ext azureToken = .error m) ∨ ext azureToken = .ok "") :
    (env = "" →
      ACRHelper.Get ⟨⟨acq, ext, exch⟩, env⟩ serverURL =
        .error missingTenantIDErrorMsg) ∧
    (env ≠ "" →
      ACRHelper.Get ⟨⟨acq, ext, exch⟩, env⟩ serverURL =
        match exch registryName serverURL env azureToken with
        | .error err => .error (acrTokenExchangeErrorMsg err)
        | .ok refreshToken => .ok ⟨nullGUID, refreshToken⟩) := by
  subst hacq
  constructor
  · intro he
    subst he
    rcases hext with ⟨m, hm⟩ | hm <;>
      simp [ACRHelper.Get, hval, hm, fallbackTenant]
  · intro he
    rcases hext with ⟨m, hm⟩ | hm <;>
      simp [ACRHelper.Get, hval, hm, fallbackTenant, he]

/-- Witness for C5: with a failing tenant extraction, the empty environment
value yields the missing-tenant error and a non-empty one reaches the
exchange, which proceeds with that value. -/
theorem claim_C5_witness :
    ACRHelper.Get ⟨⟨.ok "tok", fun _ => .error "tid claim not found",
        fun _ _ _ _ => .ok "rt-123"⟩, ""⟩ "myregistry.azurecr.io" =
      .error missingTenantIDErrorMsg ∧
    ACRHelper.Get ⟨⟨.ok "tok", fun _ => .error "tid claim not found",
        fun _ _ _ _ => .ok "rt-123"⟩, "env-tenant"⟩ "myregistry.azurecr.io" =
      .ok ⟨nullGUID, "rt-123"⟩ := by
  constructor
  · exact (claim_C5_tenant_fallback (.ok "tok")
      (fun _ => .error "tid claim not found") (fun _ _ _ _ => .ok "rt-123") ""
      "myregistry.azurecr.io" "myregistry" "tok" (by decide) rfl
      (Or.inl ⟨"tid claim not found", rfl⟩)).1 rfl
  · exact (claim_C5_tenant_fallback (.ok "tok")
      (fun _ => .error "tid claim not found") (fun _ _ _ _ => .ok "rt-123")
      "env-tenant" "myregistry.azurecr.io" "myregistry" "tok" (by decide) rfl
      (Or.inl ⟨"tid claim not found", rfl⟩)).2 (by decide)

/-- Claim C6: every successful `Get` returns the fixed null-GUID username and,
as the secret, exactly the refresh token the exchange step returned. -/
theorem claim_C6_success_shape (h : ACRHelper) (serverURL : String)
    (creds : Credentials) (hok : h.Get serverURL = .ok creds) :
    creds.username = nullGUID ∧
    ∃ registryName tenantID azureToken,
      V1.ValidateAndExtract serverURL = .ok registryName ∧
      h.authenticator.getAzureAccessToken = .ok azureToken ∧
      h.authenticator.exchangeForACRToken registryName serverURL tenantID
        azureToken = .ok creds.secret := by
  unfold ACRHelper.Get at hok
  cases hv : V1.ValidateAndExtract serverURL <;> rw [hv] at hok
  case error e => exact absurd hok (by simp)
  case ok registryName =>
  cases ha : h.authenticator.getAzureAccessToken <;> rw [ha] at hok
  case error e => exact absurd hok (by simp)
  case ok azureToken =>
  simp only [] at hok
  split at hok
  · exact absurd hok (by simp)
  · rename_i tenantID _
    split at hok
    · exact absurd hok (by simp)
    · rename_i refreshToken hx
      simp only [Except.ok.injEq] at hok
      subst hok
      exact ⟨rfl, registryName, tenantID, azureToken, rfl, rfl, hx⟩

/-- Witness for C6 with the repository tests' all-success authenticator. -/
theorem claim_C6_witness :
    ACRHelper.Get ⟨successAuthenticator, ""⟩ "myregistry.azurecr.io" =
      .ok ⟨nullGUID, "fake-refresh-token-12345"⟩ ∧
    ((⟨nullGUID, "fake-refresh-token-12345"⟩ : Credentials).username = nullGUID ∧
      ∃ registryName tenantID azureToken,
        V1.ValidateAndExtract "myregistry.azurecr.io" = .ok registryName ∧
        successAuthenticator.getAzureAccessToken = .ok azureToken ∧
        successAuthenticator.exchangeForACRToken registryName
          "myregistry.azurecr.io" tenantID azureToken =
            .ok (⟨nullGUID, "fake-refresh-token-12345"⟩ : Credentials).secret) :=
  ⟨by decide,
    claim_C6_success_shape ⟨successAuthenticator, ""⟩ "myregistry.azurecr.io"
      ⟨nullGUID, "fake-refresh-token-12345"⟩ (by decide)⟩

/-- Claim C8: when token acquisition fails, `Get` returns the failure wrapped
in the Azure-authentication error (whose text embeds the underlying cause),
and the result does not depend on the tenant-extraction or exchange
implementations — they are never consulted. -/
theorem claim_C8_auth_failure_short_circuits
    (e env serverURL registryName : String)
    (ext ext' : String → Except String String)
    (exch exch' : String → String → String → String → Except String String)
    (hval : V1.ValidateAndExtract serverURL = .ok registryName) :
    ACRHelper.Get ⟨⟨.error e, ext, exch⟩, env⟩ serverURL =
      .error (azureAuthErrorMsg e) ∧
    ACRHelper.Get ⟨⟨.error e, ext, exch⟩, env⟩ serverURL =
      ACRHelper.Get ⟨⟨.error e, ext', exch'⟩, env⟩ serverURL ∧
    (∃ before after, azureAuthErrorMsg e = before ++ e ++ after) := by
  refine ⟨?_, ?_, ⟨_, _, rfl⟩⟩
  · simp [ACRHelper.Get, hval]
  · simp [ACRHelper.Get, hval]

/-- Witness for C8 with a concrete failing acquisition and two different
tenant-extraction/exchange stubs. -/
theorem claim_C8_witness :
    V1.ValidateAndExtract "myregistry.azurecr.io" = .ok "myregistry" ∧
    (ACRHelper.Get ⟨⟨.error "no credential providers found",
        fun _ => .ok "tid", fun _ _ _ _ => .ok "rt"⟩, "env"⟩
          "myregistry.azurecr.io" =
      .error (azureAuthErrorMsg "no credential providers found") ∧
    ACRHelper.Get ⟨⟨.error "no credential providers found",
        fun _ => .ok "tid", fun _ _ _ _ => .ok "rt"⟩, "env"⟩
          "myregistry.azurecr.io" =
      ACRHelper.Get ⟨⟨.error "no credential providers found",
        fun _ => .error "boom", fun _ _ _ _ => .error "down"⟩, "env"⟩
          "myregistry.azurecr.io" ∧
    (∃ before after, azureAuthErrorMsg "no credential providers found" =
      before ++ "no credential providers found" ++ after)) :=
  ⟨by decide,
    claim_C8_auth_failure_short_circuits "no credential providers found" "env"
      "myregistry.azurecr.io" "myregistry" _ _ _ _ (by decide)⟩

/-- Claim C4: every input exhibiting a port, userinfo, query, or fragment
component fails normalization with an invalid-URL error (the message family
beginning `invalid registry URL`), regardless of the embedded host. -/
theorem claim_C4_component_rejected (s : String)
    (h : hasForbiddenComponentB s = true) :
    ∃ e, ParseAndNormalize s = .error e ∧
      strHasPre e "invalid registry URL" = true := by
  unfold hasForbiddenComponentB at h
  by_cases hd : strContainsSub (goTrimSpace (goToLower s)) "://" = true
  · rw [if_pos hd] at h
    have hne : goTrimSpace (goToLower s) ≠ "" := by
      intro h0
      rw [h0] at hd
      exact absurd hd (by decide)
    cases hp : goURLParse (goTrimSpace (goToLower s)) with
    | error e =>
      rw [hp] at h
      exact absurd h (by simp)
    | ok u =>
      rw [hp] at h
      simp only [Bool.or_eq_true, decide_eq_true_eq] at h
      by_cases h1 : u.host = ""
      · exact ⟨"invalid registry URL: missing host",
          by simp [ParseAndNormalize, normalizeRegistryHost, hne, hd, hp, h1],
          by decide⟩
      · by_cases h2 : u.port = ""
        · by_cases h3 : u.path ≠ "" ∧ u.path ≠ "/"
          · exact ⟨"invalid registry URL: paths are not allowed",
              by simp [ParseAndNormalize, normalizeRegistryHost, hne, hd, hp,
                h1, h2, h3],
              by decide⟩
          · by_cases h4 : u.rawQuery ≠ "" ∨ u.fragment ≠ "" ∨ u.user.isSome = true
            · exact ⟨"invalid registry URL: query, fragment, and user info are not allowed",
                by simp [ParseAndNormalize, normalizeRegistryHost, hne, hd, hp,
                  h1, h2, h3, h4],
                by decide⟩
            · exfalso
              push_neg at h4
              rcases h with ((hu | hq) | hq) | hq
              · exact h4.2.2 hu
              · exact hq h2
              · exact hq h4.1
              · exact hq h4.2.1
        · exact ⟨"invalid registry URL: ports are not allowed",
            by simp [ParseAndNormalize, normalizeRegistryHost, hne, hd, hp,
              h1, h2],
            by decide⟩
  · rw [if_neg hd] at h
    simp only [List.any_eq_true, Bool.or_eq_true, decide_eq_true_eq] at h
    obtain ⟨c, hc, hcform⟩ := h
    have hne : goTrimSpace (goToLower s) ≠ "" := by
      intro h0
      rw [h0] at hc
      have hnil : ("" : String).toList = [] := rfl
      rw [hnil] at hc
      exact absurd hc (List.not_mem_nil c)
    have hslash : c ≠ '/' := by
      rcases hcform with ((hcc | hcc) | hcc) | hcc <;> subst hcc <;> decide
    have hmem : c ∈ goTrimSfxL (goTrimSpace (goToLower s)).toList ['/'] :=
      mem_goTrimSfxL_singleton hc hslash
    by_cases b1 : (goTrimSfxL (goTrimSpace (goToLower s)).toList ['/']).any
        (fun c => c = '/' || c = '?' || c = '#') = true
    · simp at b1
      exact ⟨"invalid registry URL: paths, query, and fragment are not allowed",
        by simp [ParseAndNormalize, normalizeRegistryHost, hne, hd, b1],
        by decide⟩
    · by_cases b2 : (goTrimSfxL (goTrimSpace (goToLower s)).toList ['/']).any
          (fun c => c = ':') = true
      · simp at b2
        have b1n : ¬∃ x ∈ goTrimSfxL (goTrimSpace (goToLower s)).data ['/'],
            (x = '/' ∨ x = '?') ∨ x = '#' := by simpa using b1
        exact ⟨"invalid registry URL: ports are not allowed",
          by simp [ParseAndNormalize, normalizeRegistryHost, hne, hd, b1n, b2],
          by decide⟩
      · by_cases b3 : (goTrimSfxL (goTrimSpace (goToLower s)).toList ['/']).any
            (fun c => c = '@') = true
        · simp at b3
          have b1n : ¬∃ x ∈ goTrimSfxL (goTrimSpace (goToLower s)).data ['/'],
              (x = '/' ∨ x = '?') ∨ x = '#' := by simpa using b1
          have b2n : ':' ∉ goTrimSfxL (goTrimSpace (goToLower s)).data ['/'] := by
            simpa using b2
          exact ⟨"invalid registry URL: user info is not allowed",
            by simp [ParseAndNormalize, normalizeRegistryHost, hne, hd, b1n,
              b2n, b3],
            by decide⟩
        · exfalso
          rcases hcform with ((hcc | hcc) | hcc) | hcc
          · exact b2 (List.any_eq_true.mpr ⟨c, hmem, by simp [hcc]⟩)
          · exact b3 (List.any_eq_true.mpr ⟨c, hmem, by simp [hcc]⟩)
          · exact b1 (List.any_eq_true.mpr ⟨c, hmem, by simp [hcc]⟩)
          · exact b1 (List.any_eq_true.mpr ⟨c, hmem, by simp [hcc]⟩)

/-- Witness for C4 at the concrete port-carrying input
`"myregistry.azurecr.io:443"`. -/
theorem claim_C4_witness :
    hasForbiddenComponentB "myregistry.azurecr.io:443" = true ∧
    (∃ e, ParseAndNormalize "myregistry.azurecr.io:443" = .error e ∧
      strHasPre e "invalid registry URL" = true) :=
  ⟨by decide, claim_C4_component_rejected "myregistry.azurecr.io:443" (by decide)⟩

end ACRCred
